import Mathlib

/-!
Shallow embedding of the Hawkeye incident-routing core
(`src/lib/services/prediction.service.ts`, `technician.service.ts`,
`incident.service.ts`, `priority.service.ts`,
`technician-performance.service.ts`) and proofs of the specification
claims about it.

Modelling conventions:
* Timestamps are `Int` milliseconds since the epoch (JS `Date.getTime()`);
  `new Date()` / `Date.now()` calls inside one service invocation are all
  the single parameter `now` (the services run in a single instant of the
  sequential model).
* Mongo documents become Lean structures; a collection is a `List`;
  `findOne` is `List.find?` in insertion order; `updateOne` updates the
  first match (`updateFirst`); `countDocuments` is `List.countP`.
* Mongo `_id`s become `Nat`s handed out from `State.nextId`;
  `ObjectId.isValid` checks are dropped.
* JS `v || dflt` on a numeric field is `jsDefault` (absent fields are
  modelled as the falsy `0`); on a string field it replaces `""`.
* Fractional JS numbers (confidence, model R², days-to-failure) are `Rat`.
* The local-time behaviour of `Date.setHours(0,0,0,0)` is modelled with an
  explicit timezone offset `off` (milliseconds east of UTC), so that the
  day-bucket arithmetic of the rate limiter is faithful to `setHours`.
-/

deriving instance DecidableEq for Except

namespace Hawkeye

/-- JS `v || dflt` for a numeric field (absent/0 are falsy). -/
def jsDefault (v dflt : Int) : Int := if v = 0 then dflt else v

/-- JS `s || dflt` for a string field. -/
def jsDefaultStr (v dflt : String) : String := if v = "" then dflt else v

/-- `charsPrefixOf pat l` : `pat` is a prefix of `l` (character lists). -/
def charsPrefixOf : List Char → List Char → Bool
  | [], _ => true
  | _ :: _, [] => false
  | c :: cs, d :: ds => c == d && charsPrefixOf cs ds

/-- `charsContains pat l` : `pat` occurs as a contiguous run inside `l`. -/
def charsContains (pat : List Char) : List Char → Bool
  | [] => charsPrefixOf pat []
  | c :: cs => charsPrefixOf pat (c :: cs) || charsContains pat cs

/-- JS `String.prototype.includes`. -/
def strContains (s t : String) : Bool := charsContains t.toList s.toList

/-- JS `String.prototype.toLowerCase` (ASCII; kernel-reducible form of
`String.toLower`). -/
def strLower (s : String) : String := String.mk (s.data.map Char.toLower)

/-- JS `^...` anchored match. -/
def strStartsWith (s t : String) : Bool := charsPrefixOf t.toList s.toList

/-- The regex `/^Critical Alert:/i` of `checkRateLimits`. -/
def isCriticalAlertTitle (t : String) : Bool :=
  strStartsWith (strLower t) "critical alert:"

/-- `updateOne` on a list: rewrite the first element matching `p`. -/
def updateFirst (p : α → Bool) (f : α → α) : List α → List α
  | [] => []
  | a :: as => if p a then f a :: as else a :: updateFirst p f as

/-! ## Configuration constants (prediction.service.ts lines 236-248) -/

def SLA_MINUTES : Int := 15
def MIN_CONFIDENCE_THRESHOLD : Rat := 80
def MAX_DAYS_TO_FAILURE : Rat := 20
def MIN_MODEL_R2 : Rat := 0.7
def MAX_ASSIGNMENTS_PER_TECHNICIAN_PER_DAY : Nat := 3
def MAX_SYSTEM_WIDE_ASSIGNMENTS_PER_DAY : Nat := 15
def DEDUPLICATION_WINDOW_HOURS : Int := 48
def COOLDOWN_PERIOD_HOURS : Int := 24

def msPerMinute : Int := 60000
def msPerHour : Int := 3600000
def msPerDay : Int := 86400000

/-! ## Data model -/

/-- Schedule status (closed union type in `technician.service.ts`). -/
inductive SchedStatus where
  | scheduled | inProgress | completed | cancelled
  deriving DecidableEq

/-- A document of the `technician_schedule` collection. -/
structure Schedule where
  id : Nat
  technician_id : Nat
  incident_id : Nat
  scheduled_time : Int
  duration_minutes : Int
  status : SchedStatus
  created_at : Int
  deriving DecidableEq

/-- A `users` document with `role: "technician"` (fields as stored;
`getTechnicians` applies the `||` defaults on read, see `viewTechnician`). -/
structure Technician where
  id : Nat
  name : String
  specialization : String
  active : Bool
  available : Bool
  current_assignments : Int
  max_concurrent : Int
  deriving DecidableEq

/-- The read model of `getTechnicians` / `getTechnicianById`:
`specialization || "General"`, `current_assignments || 0` (identity on a
present numeric field), `max_concurrent || 2`. -/
def viewTechnician (t : Technician) : Technician :=
  { t with
    specialization := jsDefaultStr t.specialization "General"
    current_assignments := jsDefault t.current_assignments 0
    max_concurrent := jsDefault t.max_concurrent 2 }

/-- A document of the `incidents` collection. -/
structure Incident where
  id : Nat
  user_id : Nat
  title : String
  category : String
  description : String
  location : String
  status : String
  priority : Int
  assigned_to : Option Nat
  created_at : Int
  updated_at : Int
  resolved_at : Option Int
  sla_deadline : Option Int
  sla_started_at : Option Int
  escalated : Bool
  escalated_at : Option Int
  deriving DecidableEq

/-- A document of the `notifications` collection (metadata kept as the
incident id the services put there). -/
structure Notification where
  user_id : Nat
  ntype : String
  message : String
  incident_id : Option Nat
  created_at : Int
  deriving DecidableEq

/-- The persistent store: `incidents`, technician/admin `users`,
`technician_schedule`, `notifications`, plus the fresh-id counter. -/
structure State where
  incidents : List Incident
  technicians : List Technician
  admins : List Nat
  schedules : List Schedule
  notifications : List Notification
  nextId : Nat
  deriving DecidableEq

/-- `getTechnicians` (technician.service.ts lines 40-58). -/
def getTechnicians (s : State) : List Technician :=
  s.technicians.map viewTechnician

/-- `getTechnicianById` (technician.service.ts lines 63-90). -/
def getTechnicianById (s : State) (id : Nat) : Option Technician :=
  (s.technicians.find? (fun t => t.id == id)).map viewTechnician

/-- `findOne` on the incidents collection by `_id`. -/
def findIncidentDoc (s : State) (id : Nat) : Option Incident :=
  s.incidents.find? (fun i => i.id == id)

/-! ## Priority detection (priority.service.ts) -/

def HIGH_PRIORITY_KEYWORDS : List String :=
  ["urgent", "critical", "emergency", "immediate", "asap", "fire", "flood",
   "leak", "broken", "down", "outage", "failure", "dangerous", "hazard",
   "unsafe", "blocked", "stuck", "trapped", "injured", "accident"]

def MEDIUM_PRIORITY_KEYWORDS : List String :=
  ["important", "soon", "quickly", "problem", "issue", "not working",
   "damaged", "faulty", "malfunction", "disruption", "inconvenience"]

def LOW_PRIORITY_KEYWORDS : List String :=
  ["minor", "small", "cosmetic", "suggestion", "improvement", "enhancement",
   "nice to have", "when possible", "eventually"]

/-- `categoryPriority` table of `detectPriority` (exact-key lookup). -/
def categoryPriority (category : String) : Option Int :=
  [("electricity", (4 : Int)), ("water", 4), ("it", 3), ("hostel", 3),
   ("garbage", 2)].lookup category

structure PriorityResult where
  priority : Int
  reason : String
  deriving DecidableEq

/-- `detectPriority` (priority.service.ts lines 30-88). -/
def detectPriority (title description category : String) : PriorityResult :=
  let text := strLower (title ++ " " ++ description)
  let highPriorityMatches : Nat :=
    (HIGH_PRIORITY_KEYWORDS.filter (fun k => strContains text k)).length
  let mediumPriorityMatches : Nat :=
    (MEDIUM_PRIORITY_KEYWORDS.filter (fun k => strContains text k)).length
  let lowPriorityMatches : Nat :=
    (LOW_PRIORITY_KEYWORDS.filter (fun k => strContains text k)).length
  if highPriorityMatches > 0 || categoryPriority category == some 4 then
    { priority := min (4 + min (highPriorityMatches : Int) 1) 5
      reason :=
        if highPriorityMatches > 0 then
          "High priority keywords detected (" ++ toString highPriorityMatches
            ++ " matches)"
        else "High priority category: " ++ category }
  else if mediumPriorityMatches > 0 || categoryPriority category == some 3 then
    { priority := 3
      reason :=
        if mediumPriorityMatches > 0 then
          "Medium priority keywords detected (" ++ toString mediumPriorityMatches
            ++ " matches)"
        else "Medium priority category: " ++ category }
  else if lowPriorityMatches > 0 || categoryPriority category == some 2 then
    { priority := 2
      reason :=
        if lowPriorityMatches > 0 then
          "Low priority keywords detected (" ++ toString lowPriorityMatches
            ++ " matches)"
        else "Low priority category: " ++ category }
  else
    { priority := jsDefault ((categoryPriority category).getD 0) 1
      reason := "Standard priority for category: " ++ category }

/-! ## Quality gates, category mapping, technician selection
(prediction.service.ts) -/

/-- A candidate critical alert (the argument of
`createAndAssignCriticalAlert`). -/
structure Alert where
  location : String
  category : String
  days_to_next_failure : Rat
  confidence : Option Rat
  message : Option String
  model_r2 : Option Rat
  deriving DecidableEq

/-- `passesQualityGates` (prediction.service.ts lines 304-328). -/
def passesQualityGates (alert : Alert) : Bool :=
  if alert.confidence.any (fun c => c < MIN_CONFIDENCE_THRESHOLD) then false
  else if alert.days_to_next_failure > MAX_DAYS_TO_FAILURE then false
  else if alert.model_r2.any (fun r => r < MIN_MODEL_R2) then false
  else true

/-- `CATEGORY_TO_SPECIALIZATION` (prediction.service.ts lines 251-257). -/
def CATEGORY_TO_SPECIALIZATION : List (String × List String) :=
  [("electricity", ["Electrical"]), ("water", ["Plumbing"]), ("it", ["IT"]),
   ("hostel", ["General", "HVAC"]), ("garbage", ["General"])]

/-- `getSpecializationForCategory` (prediction.service.ts lines 262-264). -/
def getSpecializationForCategory (category : String) : List String :=
  (CATEGORY_TO_SPECIALIZATION.lookup (strLower category)).getD ["General"]

/-- A technician (read model) is eligible for work:
`active && available && current_assignments < max_concurrent`. -/
def eligibleTech (t : Technician) : Bool :=
  t.active && t.available && decide (t.current_assignments < t.max_concurrent)

/-- One `technicians.find` pass of the exact-specialization loop. -/
def exactMatchTech (specialization : String) (t : Technician) : Bool :=
  strLower t.specialization == strLower specialization && eligibleTech t

/-- The `for (const specialization of specializations)` loop of
`findTechnicianBySpecialization`. -/
def findAcrossTags (technicians : List Technician) :
    List String → Option Technician
  | [] => none
  | tag :: rest =>
    match technicians.find? (exactMatchTech tag) with
    | some t => some t
    | none => findAcrossTags technicians rest

/-- `findTechnicianBySpecialization` (prediction.service.ts lines 269-299). -/
def findTechnicianBySpecialization (s : State) (category : String) :
    Option Technician :=
  let specializations := getSpecializationForCategory category
  let technicians := getTechnicians s
  match findAcrossTags technicians specializations with
  | some t => some t
  | none => technicians.find? eligibleTech

/-! ## Overlap detection (technician.service.ts lines 95-132) -/

/-- The effective duration `schedule.duration_minutes || 30`. -/
def effDuration (d : Int) : Int := jsDefault d 30

/-- The three-disjunct overlap test of `hasOverlappingSchedule`, on interval
endpoints in milliseconds. -/
def overlapTest (startTime endTime scheduleStart scheduleEnd : Int) : Bool :=
  (decide (startTime ≥ scheduleStart) && decide (startTime < scheduleEnd)) ||
  (decide (endTime > scheduleStart) && decide (endTime ≤ scheduleEnd)) ||
  (decide (startTime ≤ scheduleStart) && decide (endTime ≥ scheduleEnd))

/-- `hasOverlappingSchedule` (technician.service.ts lines 95-132). -/
def hasOverlappingSchedule (s : State) (technicianId : Nat)
    (scheduledTime : Int) (durationMinutes : Int) : Bool :=
  let startTime := scheduledTime
  let endTime := startTime + durationMinutes * msPerMinute
  let activeSchedules := s.schedules.filter (fun sc =>
    sc.technician_id == technicianId &&
    (sc.status == SchedStatus.scheduled || sc.status == SchedStatus.inProgress))
  activeSchedules.any (fun sc =>
    let scheduleStart := sc.scheduled_time
    let scheduleEnd := scheduleStart + effDuration sc.duration_minutes * msPerMinute
    overlapTest startTime endTime scheduleStart scheduleEnd)

/-! ## Schedule store operations (technician.service.ts) -/

/-- Argument record of `createSchedule`; an absent `duration_minutes`
is the falsy `0` (the code applies `|| 30`). -/
structure CreateScheduleData where
  technician_id : Nat
  incident_id : Nat
  scheduled_time : Int
  duration_minutes : Int
  deriving DecidableEq

/-- `updateTechnicianAssignmentCount` (technician.service.ts lines 303-314):
an unconditional `$inc` on the first `_id` match. -/
def updateTechnicianAssignmentCount (s : State) (technicianId : Nat)
    (delta : Int) : State :=
  let techs := updateFirst (fun t => t.id == technicianId)
    (fun t => { t with current_assignments := t.current_assignments + delta })
    s.technicians
  { s with technicians := techs }

/-- The `notifyTechnicianAssignment` step at the end of `createSchedule`:
skipped when the incident is absent; notification failures are caught and
ignored. -/
def notifyAssignment (s2 : State) (data : CreateScheduleData) (now : Int) :
    State :=
  match findIncidentDoc s2 data.incident_id with
  | some incident =>
    { s2 with notifications := s2.notifications ++
        [{ user_id := data.technician_id
           ntype := "technician_assigned"
           message := "You have been assigned to incident: \"" ++
             incident.title ++ "\" at " ++ incident.location
           incident_id := some data.incident_id
           created_at := now }] }
  | none => s2

/-- The schedule document `createSchedule` inserts (fresh `_id`, the
`|| 30` duration default, status `scheduled`, `created_at = new Date()`). -/
def mkSchedule (s : State) (data : CreateScheduleData) (now : Int) : Schedule :=
  { id := s.nextId
    technician_id := data.technician_id
    incident_id := data.incident_id
    scheduled_time := data.scheduled_time
    duration_minutes := jsDefault data.duration_minutes 30
    status := .scheduled
    created_at := now }

/-- `insertOne` on the `technician_schedule` collection. -/
def insertSchedule (s : State) (sched : Schedule) : State :=
  { s with schedules := s.schedules ++ [sched], nextId := s.nextId + 1 }

/-- `createSchedule` (technician.service.ts lines 137-210). Failures are
`throw`s raised before any write, so they return the state unchanged. -/
def createSchedule (s : State) (data : CreateScheduleData) (now : Int) :
    Except String Schedule × State :=
  let scheduledTime := data.scheduled_time
  let durationMinutes := jsDefault data.duration_minutes 30
  if hasOverlappingSchedule s data.technician_id scheduledTime durationMinutes then
    (.error "Technician has overlapping schedule at this time", s)
  else
    match getTechnicianById s data.technician_id with
    | none => (.error "Technician not found", s)
    | some technician =>
      if !technician.available then
        (.error "Technician is not available", s)
      else if technician.current_assignments ≥ technician.max_concurrent then
        (.error "Technician has reached maximum concurrent assignments", s)
      else
        let schedule := mkSchedule s data now
        let s2 := updateTechnicianAssignmentCount (insertSchedule s schedule)
          data.technician_id 1
        (.ok schedule, notifyAssignment s2 data now)

/-- `updateScheduleStatus` (technician.service.ts lines 283-298). -/
def updateScheduleStatus (s : State) (scheduleId : Nat) (status : SchedStatus) :
    State :=
  let scheds := updateFirst (fun sc => sc.id == scheduleId)
    (fun sc => { sc with status := status }) s.schedules
  { s with schedules := scheds }

/-- `findAvailableTechnicians` (technician.service.ts lines 319-353). -/
def findAvailableTechnicians (s : State) (scheduledTime : Option Int) :
    List Technician :=
  let available := (getTechnicians s).filter eligibleTech
  match scheduledTime with
  | some t => available.filter (fun tech => !hasOverlappingSchedule s tech.id t 30)
  | none => available

/-- Stable insertion of `a` behind every element not strictly after it.
Together with `sortByAssignments` this models the stable JS
`sort((a, b) => a.current_assignments - b.current_assignments)`:
a stable sort for a fixed comparator has a unique result. -/
def insertByAssignments (a : Technician) : List Technician → List Technician
  | [] => [a]
  | b :: bs =>
    if a.current_assignments < b.current_assignments then a :: b :: bs
    else b :: insertByAssignments a bs

/-- Stable ascending sort by `current_assignments`. -/
def sortByAssignments (l : List Technician) : List Technician :=
  l.foldl (fun acc a => insertByAssignments a acc) []

/-- `autoAssignTechnician` (technician.service.ts lines 358-382). -/
def autoAssignTechnician (s : State) (incidentId : Nat)
    (scheduledTime : Option Int) (now : Int) :
    Except String (Option Schedule) × State :=
  let availableTechnicians := findAvailableTechnicians s scheduledTime
  match sortByAssignments availableTechnicians with
  | [] => (.ok none, s)
  | bestTechnician :: _ =>
    let scheduleTime := scheduledTime.getD (now + 15 * msPerMinute)
    match createSchedule s
        { technician_id := bestTechnician.id
          incident_id := incidentId
          scheduled_time := scheduleTime
          duration_minutes := 30 } now with
    | (.ok sched, s1) => (.ok (some sched), s1)
    | (.error e, s1) => (.error e, s1)

/-! ## Incident store operations (incident.service.ts) -/

/-- Argument record of `createIncident` (image/GPS fields are always null
on the critical-alert path and are dropped; `user_id` is an ObjectId
string, modelled as always present). -/
structure CreateIncidentData where
  user_id : Nat
  title : String
  category : String
  description : String
  location : String
  deriving DecidableEq

/-- Start of the server-local day containing `now`
(`d.setHours(0,0,0,0)` for a timezone `off` milliseconds east of UTC). -/
def localDayStart (now off : Int) : Int :=
  ((now + off).fdiv msPerDay) * msPerDay - off

/-- `checkDuplicateIncident` (incident.service.ts lines 190-213). -/
def checkDuplicateIncident (s : State) (category location : String)
    (now off : Int) : Bool :=
  let today := localDayStart now off
  (s.incidents.find? (fun inc =>
    inc.category == category && inc.location == location &&
    decide (today ≤ inc.created_at) &&
    decide (inc.created_at < today + msPerDay))).isSome

/-- The incident document `createIncident` inserts (status `new`, priority
from `detectPriority`, no assignment, both timestamps `new Date()`). -/
def mkIncident (s : State) (data : CreateIncidentData) (now : Int) : Incident :=
  { id := s.nextId
    user_id := data.user_id
    title := data.title
    category := data.category
    description := data.description
    location := data.location
    status := "new"
    priority := (detectPriority data.title data.description data.category).priority
    assigned_to := none
    created_at := now
    updated_at := now
    resolved_at := none
    sla_deadline := none
    sla_started_at := none
    escalated := false
    escalated_at := none }

/-- `insertOne` on the `incidents` collection. -/
def insertIncident (s : State) (inc : Incident) : State :=
  { s with incidents := s.incidents ++ [inc], nextId := s.nextId + 1 }

/-- `createIncident` (incident.service.ts lines 218-261); validation
failures `throw` before any write. -/
def createIncident (s : State) (data : CreateIncidentData)
    (skipDuplicateCheck : Bool) (now off : Int) :
    Except String Incident × State :=
  if data.title == "" || data.category == "" || data.description == "" ||
      data.location == "" then
    (.error "Missing required fields", s)
  else if !skipDuplicateCheck &&
      checkDuplicateIncident s data.category data.location now off then
    (.error "An incident for this category and location already exists today", s)
  else
    let newIncident := mkIncident s data now
    (.ok newIncident, insertIncident s newIncident)

/-! ## Cooldown, deduplication, rate limits (prediction.service.ts) -/

/-- `isInCooldownPeriod` (prediction.service.ts lines 333-358):
`setHours(getHours() - 24)` is exactly `now - 24h` under a fixed offset. -/
def isInCooldownPeriod (s : State) (location category : String) (now : Int) :
    Bool :=
  let cooldownStart := now - COOLDOWN_PERIOD_HOURS * msPerHour
  (s.incidents.find? (fun inc =>
    inc.location == location && inc.category == category &&
    decide (cooldownStart ≤ inc.created_at) && inc.assigned_to.isSome)).isSome

/-- `findExistingIncident` (prediction.service.ts lines 408-426). -/
def findExistingIncident (s : State) (location category : String) (now : Int) :
    Option Incident :=
  let windowStart := now - DEDUPLICATION_WINDOW_HOURS * msPerHour
  s.incidents.find? (fun inc =>
    inc.location == location && inc.category == category &&
    decide (windowStart ≤ inc.created_at) &&
    (inc.status == "new" || inc.status == "in-progress" ||
     inc.status == "pending"))

/-- `countDocuments` of today's auto-created alerts assigned to one
technician (day bucket bounded by the server-local midnights). -/
def techDayCount (s : State) (technicianId : Nat) (now off : Int) : Nat :=
  let today := localDayStart now off
  s.incidents.countP (fun inc =>
    inc.assigned_to == some technicianId &&
    decide (today ≤ inc.created_at) &&
    decide (inc.created_at < today + msPerDay) &&
    isCriticalAlertTitle inc.title)

/-- `countDocuments` of today's auto-created alerts system-wide. -/
def systemDayCount (s : State) (now off : Int) : Nat :=
  let today := localDayStart now off
  s.incidents.countP (fun inc =>
    decide (today ≤ inc.created_at) &&
    decide (inc.created_at < today + msPerDay) &&
    isCriticalAlertTitle inc.title)

structure RateLimitResult where
  allowed : Bool
  reason : Option String
  deriving DecidableEq

/-- `checkRateLimits` (prediction.service.ts lines 363-403). -/
def checkRateLimits (s : State) (technicianId : Nat) (now off : Int) :
    RateLimitResult :=
  if techDayCount s technicianId now off ≥
      MAX_ASSIGNMENTS_PER_TECHNICIAN_PER_DAY then
    { allowed := false
      reason := some "Technician has reached daily limit of 3 assignments" }
  else if systemDayCount s now off ≥ MAX_SYSTEM_WIDE_ASSIGNMENTS_PER_DAY then
    { allowed := false
      reason := some "System has reached daily limit of 15 auto-assignments" }
  else { allowed := true, reason := none }

/-! ## The assignment engine (prediction.service.ts lines 431-609) -/

structure AssignResult where
  incidentId : Nat
  technicianId : Nat
  slaDeadline : Int
  deriving DecidableEq

/-- JS `Math.round`. -/
def jsRound (q : Rat) : Int := (q + 1 / 2).floor

/-- The incident status written by the assignment update:
`currentIncident?.status === "resolved" ? "resolved" : "in-progress"`. -/
def assignmentStatus (st : String) : String :=
  if st == "resolved" then "resolved" else "in-progress"

/-- The generated incident description
(`alert.message || "ML model predicts failure within ..."`). -/
def alertDescription (alert : Alert) : String :=
  jsDefaultStr (alert.message.getD "")
    ("ML model predicts failure within " ++
     toString (jsRound alert.days_to_next_failure) ++ " days at " ++
     alert.location ++ ". Confidence: " ++
     toString (alert.confidence.getD 0) ++
     "%. This is an automatically generated incident from predictive analytics.")

/-- The generated incident title. -/
def alertTitle (alert : Alert) : String :=
  "Critical Alert: Predicted Failure at " ++ alert.location

/-- The `$set` of the assignment `updateOne` (prediction.service.ts lines
562-574): `assigned_to`, `updated_at`, SLA fields, priority 5 and the
status value computed from the re-read incident. -/
def applyAssignment (technicianId : Nat) (now : Int) (statusValue : String)
    (i : Incident) : Incident :=
  { i with assigned_to := some technicianId
           updated_at := now
           sla_deadline := some (now + SLA_MINUTES * msPerMinute)
           sla_started_at := some now
           priority := 5
           status := statusValue }

/-- The `createNotification` call that tells the technician about the
assignment (notification failures are caught and ignored). -/
def notifyCriticalAssignment (s3 : State) (technician : Technician)
    (alert : Alert) (incidentId : Nat) (now : Int) : State :=
  { s3 with notifications := s3.notifications ++
      [{ user_id := technician.id
         ntype := "assignment"
         message := "You have been assigned a critical alert: " ++
           alertTitle alert ++ " at " ++ alert.location ++
           ". SLA: " ++ toString SLA_MINUTES ++ " minutes."
         incident_id := some incidentId
         created_at := now }] }

/-- `createAndAssignCriticalAlert` from the incident creation on (all
quality gates already passed, the acting user id resolved). -/
def assignAfterGates (s : State) (alert : Alert) (technician : Technician)
    (incidentUserId : Nat) (now off : Int) :
    Except String (Option AssignResult) × State :=
  let incidentData : CreateIncidentData :=
    { user_id := incidentUserId
      title := alertTitle alert
      category := alert.category
      description := alertDescription alert
      location := alert.location }
  match createIncident s incidentData true now off with
  | (.error e, s1) => (.error e, s1)
  | (.ok incident, s1) =>
    let currentIncident := findIncidentDoc s1 incident.id
    let alreadyAssigned :=
      match currentIncident with
      | some cur =>
        match cur.assigned_to with
        | some t => t == technician.id
        | none => false
      | none => false
    if alreadyAssigned then
      let slaDeadline :=
        match currentIncident with
        | some cur => cur.sla_deadline.getD (now + SLA_MINUTES * msPerMinute)
        | none => now + SLA_MINUTES * msPerMinute
      (.ok (some { incidentId := incident.id
                   technicianId := technician.id
                   slaDeadline := slaDeadline }), s1)
    else
      -- try { autoAssignTechnician(...) } catch { warn }: the schedule
      -- failure is swallowed either way.
      let s2 :=
        (autoAssignTechnician s1 incident.id
          (some (now + 5 * msPerMinute)) now).2
      let statusValue :=
        match currentIncident with
        | some cur => assignmentStatus cur.status
        | none => "in-progress"
      let incs := updateFirst (fun i => i.id == incident.id)
        (applyAssignment technician.id now statusValue) s2.incidents
      let s4 := notifyCriticalAssignment { s2 with incidents := incs }
        technician alert incident.id now
      (.ok (some { incidentId := incident.id
                   technicianId := technician.id
                   slaDeadline := now + SLA_MINUTES * msPerMinute }), s4)

/-- `createAndAssignCriticalAlert` (prediction.service.ts lines 431-609).
All `Date.now()` / `new Date()` reads inside the invocation are `now`;
`off` is the server timezone offset. `Except.error` models the rethrown
exception of the outer catch; `.ok none` is a gate rejection. -/
def createAndAssignCriticalAlert (s : State) (alert : Alert)
    (userId : Option Nat) (now off : Int) :
    Except String (Option AssignResult) × State :=
  if !passesQualityGates alert then (.ok none, s)
  else if isInCooldownPeriod s alert.location alert.category now then
    (.ok none, s)
  else if (findExistingIncident s alert.location alert.category now).isSome then
    (.ok none, s)
  else
    match findTechnicianBySpecialization s alert.category with
    | none => (.ok none, s)
    | some technician =>
      if technician.current_assignments ≥ technician.max_concurrent then
        (.ok none, s)
      else
        let rateLimitCheck := checkRateLimits s technician.id now off
        if !rateLimitCheck.allowed then (.ok none, s)
        else
          let incidentUserId :=
            match userId with
            | some u => u
            | none =>
              match s.admins with
              | a0 :: _ => a0
              | [] => technician.id
          assignAfterGates s alert technician incidentUserId now off

/-! ## Escalation sweep (technician-performance.service.ts lines 179-254) -/

/-- The SLA-breach notification to the reporting user (`notifySLAExceeded`). -/
def slaUserNotification (inc : Incident) (now : Int) : Notification :=
  { user_id := inc.user_id
    ntype := "sla_exceeded"
    message := "Alert: SLA exceeded for incident \"" ++ inc.title ++
      "\". Escalating..."
    incident_id := some inc.id
    created_at := now }

/-- The escalation notification sent to one administrator. -/
def slaAdminNotification (inc : Incident) (now : Int) (adminId : Nat) :
    Notification :=
  { user_id := adminId
    ntype := "escalation"
    message := "SLA Breach: Incident \"" ++ inc.title ++
      "\" has exceeded the " ++ toString SLA_MINUTES ++ "-minute SLA"
    incident_id := some inc.id
    created_at := now }

/-- One loop body of `checkAndEscalateSLA` once the incident was found
unescalated: flag it and emit the notifications. -/
def escalateOne (st : State) (inc : Incident) (now : Int) : State :=
  let incs := updateFirst (fun i => i.id == inc.id)
    (fun i => { i with escalated := true, escalated_at := some now })
    st.incidents
  { st with incidents := incs
            notifications := st.notifications ++
              (slaUserNotification inc now ::
               st.admins.map (slaAdminNotification inc now)) }

/-- The `for (const incident of incidents)` loop of `checkAndEscalateSLA`:
the age test reads the snapshot, the `escalated` test re-reads the store. -/
def sweepLoop (now : Int) : List Incident → State → Nat → State × Nat
  | [], st, count => (st, count)
  | inc :: rest, st, count =>
    if Int.fdiv (now - inc.created_at) msPerMinute > SLA_MINUTES then
      match findIncidentDoc st inc.id with
      | some cur =>
        if cur.escalated then sweepLoop now rest st count
        else sweepLoop now rest (escalateOne st inc now) (count + 1)
      | none => sweepLoop now rest st count
    else sweepLoop now rest st count

/-- `checkAndEscalateSLA` (technician-performance.service.ts lines 179-254).
`getIncidents` sorts the snapshot by `created_at`; that only permutes the
iteration order and each iteration touches only its own incident, so the
snapshot is kept in store order. -/
def checkAndEscalateSLA (s : State) (now : Int) : State × Nat :=
  let newIncidents := s.incidents.filter (fun i => i.status == "new")
  let inProgressIncidents := s.incidents.filter (fun i => i.status == "in-progress")
  sweepLoop now (newIncidents ++ inProgressIncidents) s 0

/-! ## Technician-directory operation alphabet (for the capacity invariant) -/

/-- The schedule-store operations of `technician.service.ts` that touch a
technician's `current_assignments`: schedule creation (which performs the
guarded `adjustAssignmentCount(+1)` internally) and the status update used
by the completion route (`PATCH /api/technicians/assignments/[id]`). -/
inductive DirOp where
  | create (data : CreateScheduleData) (now : Int)
  | setStatus (scheduleId : Nat) (status : SchedStatus)

/-- Effect of one directory operation on the store. -/
def dirStep (s : State) : DirOp → State
  | .create data now => (createSchedule s data now).2
  | .setStatus sid st => updateScheduleStatus s sid st

/-- The capacity invariant of the spec:
`0 ≤ current_assignments ≤ max_concurrent` for every technician, on
the directory read model (`max_concurrent || 2`). -/
def CapacityInv (s : State) : Prop :=
  ∀ t ∈ s.technicians, 0 ≤ t.current_assignments ∧
    t.current_assignments ≤ jsDefault t.max_concurrent 2

instance : DecidablePred CapacityInv := fun s => by
  unfold CapacityInv
  exact List.decidableBAll _ s.technicians

/-! ## Reference definitions written from the specification text
(for refinement/correction claims only) -/

/-- Modelled from the spec: midnight UTC, the day-bucket boundary the spec
assigns to the rate limiter. -/
def utcDayStart (now : Int) : Int := (now.fdiv msPerDay) * msPerDay

/-- Modelled from the spec: the technician's auto-assignment count over the
UTC day bucket (the code uses the server-local bucket instead). -/
def utcTechDayCount (s : State) (technicianId : Nat) (now : Int) : Nat :=
  let today := utcDayStart now
  s.incidents.countP (fun inc =>
    inc.assigned_to == some technicianId &&
    decide (today ≤ inc.created_at) &&
    decide (inc.created_at < today + msPerDay) &&
    isCriticalAlertTitle inc.title)

/-- Modelled from the spec: the system-wide auto-assignment count over the
UTC day bucket. -/
def utcSystemDayCount (s : State) (now : Int) : Nat :=
  let today := utcDayStart now
  s.incidents.countP (fun inc =>
    decide (today ≤ inc.created_at) &&
    decide (inc.created_at < today + msPerDay) &&
    isCriticalAlertTitle inc.title)

/-- The symmetric interval-intersection reference formula of the spec:
`newStart < existingEnd AND newEnd > existingStart`. -/
def specIntervalOverlap (newStart newEnd existingStart existingEnd : Int) :
    Prop :=
  newStart < existingEnd ∧ newEnd > existingStart

instance (a b c d : Int) : Decidable (specIntervalOverlap a b c d) := by
  unfold specIntervalOverlap; infer_instance

/-! ## Concrete stores used by witnesses and counterexamples -/

def samplePlumber : Technician :=
  { id := 1, name := "Bob", specialization := "Plumbing", active := true,
    available := true, current_assignments := 0, max_concurrent := 2 }

def sampleState : State :=
  { incidents := [], technicians := [samplePlumber], admins := [100],
    schedules := [], notifications := [], nextId := 5 }

def sampleAlert : Alert :=
  { location := "Block A", category := "water", days_to_next_failure := 5,
    confidence := some 90, message := some "Pipe burst expected",
    model_r2 := none }

def sampleNow : Int := 1700000000000

def sampleIncident : Incident :=
  { id := 9, user_id := 2, title := "Leak", category := "water",
    description := "dripping pipe", location := "Block B", status := "new",
    priority := 3, assigned_to := none, created_at := sampleNow,
    updated_at := sampleNow, resolved_at := none, sla_deadline := none,
    sla_started_at := none, escalated := false, escalated_at := none }

def sampleSweepState : State :=
  { incidents := [sampleIncident], technicians := [], admins := [100, 101],
    schedules := [], notifications := [], nextId := 10 }

/-- `sampleIncident` as flagged by a sweep at time `t`. -/
def sampleIncidentEscalated (t : Int) : Incident :=
  { sampleIncident with escalated := true, escalated_at := some t }

def sampleSchedule : Schedule :=
  { id := 3, technician_id := 1, incident_id := 9,
    scheduled_time := sampleNow, duration_minutes := 30,
    status := .scheduled, created_at := sampleNow }

def sampleSchedState : State :=
  { incidents := [sampleIncident], technicians := [samplePlumber],
    admins := [100], schedules := [sampleSchedule], notifications := [],
    nextId := 20 }

/-- A `Critical Alert:` incident assigned to technician 1, created at 23:00
UTC of the day before `rateLimitNow` but inside the same *local* day for a
UTC+2 server. -/
def rateLimitIncident (n : Nat) : Incident :=
  { id := n, user_id := 100, title := "Critical Alert: Predicted Failure at B",
    category := "water", description := "auto", location := "B",
    status := "in-progress", priority := 5, assigned_to := some 1,
    created_at := 20000 * msPerDay - msPerHour,
    updated_at := 20000 * msPerDay - msPerHour, resolved_at := none,
    sla_deadline := none, sla_started_at := none, escalated := false,
    escalated_at := none }

def rateLimitState : State :=
  { incidents := [rateLimitIncident 31, rateLimitIncident 32, rateLimitIncident 33],
    technicians := [samplePlumber], admins := [100], schedules := [],
    notifications := [], nextId := 40 }

/-- 01:00 UTC; 03:00 for the UTC+2 server. -/
def rateLimitNow : Int := 20000 * msPerDay + msPerHour

/-- Timezone offset of a UTC+2 server, milliseconds east. -/
def rateLimitOff : Int := 2 * msPerHour

/-! ## Helper lemmas about `updateFirst` and `find?` -/

theorem mem_updateFirst {p : α → Bool} {f : α → α} {l : List α} {x : α}
    (hx : x ∈ updateFirst p f l) :
    x ∈ l ∨ ∃ a, List.find? p l = some a ∧ x = f a := by
  induction l with
  | nil => simp [updateFirst] at hx
  | cons a as ih =>
    by_cases h : p a
    · simp only [updateFirst, if_pos h, List.mem_cons] at hx
      rcases hx with hx | hx
      · exact Or.inr ⟨a, by simp [List.find?, h], hx⟩
      · exact Or.inl (List.mem_cons_of_mem _ hx)
    · simp only [updateFirst, if_neg h, List.mem_cons] at hx
      rcases hx with hx | hx
      · exact Or.inl (by simp [hx])
      · rcases ih hx with h1 | ⟨b, hb, hxb⟩
        · exact Or.inl (List.mem_cons_of_mem _ h1)
        · refine Or.inr ⟨b, ?_, hxb⟩
          simpa [List.find?, h] using hb

theorem find?_updateFirst_of_disjoint {p q : α → Bool} {f : α → α}
    (l : List α) (hpq : ∀ x, p x = true → q x = false)
    (hq : ∀ x, q (f x) = q x) :
    List.find? q (updateFirst p f l) = List.find? q l := by
  induction l with
  | nil => rfl
  | cons a as ih =>
    by_cases h : p a
    · have hqa : q a = false := hpq a h
      have hqfa : q (f a) = false := by rw [hq]; exact hqa
      simp [updateFirst, h, List.find?, hqa, hqfa]
    · by_cases hqa : q a
      · simp [updateFirst, h, List.find?, hqa]
      · simp only [Bool.not_eq_true] at hqa
        simp [updateFirst, h, List.find?, hqa, ih]

theorem find?_updateFirst_self {p : α → Bool} {f : α → α} {l : List α} {a : α}
    (h : List.find? p l = some a) (hp : ∀ x, p (f x) = p x) :
    List.find? p (updateFirst p f l) = some (f a) := by
  induction l with
  | nil => simp [List.find?] at h
  | cons b bs ih =>
    by_cases hb : p b
    · have hba : b = a := by simpa [List.find?, hb] using h
      subst hba
      have : p (f b) = true := by rw [hp]; exact hb
      simp [updateFirst, hb, List.find?, this]
    · have h' : List.find? p bs = some a := by simpa [List.find?, hb] using h
      simp [updateFirst, hb, List.find?, ih h']

theorem find?_beq_of_mem_nodup {f : α → β} [DecidableEq β] {l : List α} {x : α}
    (hn : (l.map f).Nodup) (hx : x ∈ l) :
    l.find? (fun y => f y == f x) = some x := by
  induction l with
  | nil => simp at hx
  | cons a as ih =>
    rcases List.mem_cons.mp hx with rfl | hx'
    · simp [List.find?]
    · have hn2 : (f a :: as.map f).Nodup := by simpa using hn
      have hna : f a ∉ as.map f := (List.nodup_cons.mp hn2).1
      have hn' : (as.map f).Nodup := (List.nodup_cons.mp hn2).2
      have hne : (f a == f x) = false := by
        apply beq_false_of_ne
        intro hcontra
        exact hna (hcontra ▸ List.mem_map_of_mem f hx')
      simp [List.find?, hne, ih hn' hx']

/-! ## C1: the quality gate filter -/

/-- C1. The quality gate accepts a candidate alert if and only if
(confidence is absent or `confidence ≥ 80`) and `daysToFailure ≤ 20` and
(modelR2 is absent or `modelR2 ≥ 0.7`); every alert with `confidence = 79`
is rejected regardless of `daysToFailure`, and every alert with
`daysToFailure = 21` is rejected regardless of confidence. -/
theorem qualityGate_accepts_iff :
    (∀ a : Alert, passesQualityGates a = true ↔
      ((∀ c, a.confidence = some c → MIN_CONFIDENCE_THRESHOLD ≤ c) ∧
       a.days_to_next_failure ≤ MAX_DAYS_TO_FAILURE ∧
       (∀ r, a.model_r2 = some r → MIN_MODEL_R2 ≤ r))) ∧
    (∀ loc cat d msg r2,
      passesQualityGates ⟨loc, cat, d, some 79, msg, r2⟩ = false) ∧
    (∀ loc cat conf msg r2,
      passesQualityGates ⟨loc, cat, 21, conf, msg, r2⟩ = false) := by
  have hmain : ∀ a : Alert, passesQualityGates a = true ↔
      ((∀ c, a.confidence = some c → MIN_CONFIDENCE_THRESHOLD ≤ c) ∧
       a.days_to_next_failure ≤ MAX_DAYS_TO_FAILURE ∧
       (∀ r, a.model_r2 = some r → MIN_MODEL_R2 ≤ r)) := by
    intro a
    unfold passesQualityGates
    rcases a with ⟨loc, cat, d, conf, msg, r2⟩
    cases conf <;> cases r2 <;>
      simp [Option.any, not_lt, le_refl] <;>
      constructor <;> intro h <;> simp_all [not_lt] <;> tauto
  refine ⟨hmain, fun loc cat d msg r2 => ?_, fun loc cat conf msg r2 => ?_⟩
  · by_contra hne
    have h1 : passesQualityGates ⟨loc, cat, d, some 79, msg, r2⟩ = true := by
      revert hne
      cases passesQualityGates ⟨loc, cat, d, some 79, msg, r2⟩ <;> simp
    have h2 := (hmain _).mp h1
    have := h2.1 79 rfl
    norm_num [MIN_CONFIDENCE_THRESHOLD] at this
  · by_contra hne
    have h1 : passesQualityGates ⟨loc, cat, 21, conf, msg, r2⟩ = true := by
      revert hne
      cases passesQualityGates ⟨loc, cat, 21, conf, msg, r2⟩ <;> simp
    have h2 := (hmain _).mp h1
    have := h2.2.1
    norm_num [MAX_DAYS_TO_FAILURE] at this

/-- Witness for C1: the gate accepts a concrete in-threshold alert and
rejects concrete alerts at confidence 79 and at 21 days. -/
theorem qualityGate_accepts_iff_witness :
    passesQualityGates ⟨"Block A", "water", 5, some 90, none, none⟩ = true ∧
    passesQualityGates ⟨"Block A", "water", 1, some 79, none, none⟩ = false ∧
    passesQualityGates ⟨"Block A", "water", 21, some 99, none, none⟩ = false := by
  refine ⟨?_, ?_, ?_⟩
  · exact (qualityGate_accepts_iff.1 _).mpr
      ⟨fun c hc => by injection hc with h; subst h; norm_num [MIN_CONFIDENCE_THRESHOLD],
       by norm_num [MAX_DAYS_TO_FAILURE],
       fun r hr => by cases hr⟩
  · exact qualityGate_accepts_iff.2.1 "Block A" "water" 1 none none
  · exact qualityGate_accepts_iff.2.2 "Block A" "water" (some 99) none none

/-! ## C4: overlap detection refines the spec formula -/

theorem effDuration_pos {d : Int} (h : 0 ≤ d) : 0 < effDuration d := by
  unfold effDuration jsDefault
  split <;> omega

/-- On non-empty intervals the code's three-disjunct test equals the spec's
symmetric intersection formula. -/
theorem overlapTest_eq_spec (ns ne es ee : Int) (hnd : ns < ne)
    (hed : es < ee) :
    overlapTest ns ne es ee = true ↔ specIntervalOverlap ns ne es ee := by
  unfold overlapTest specIntervalOverlap
  simp only [Bool.or_eq_true, Bool.and_eq_true, decide_eq_true_eq, ge_iff_le]
  omega

/-- C4. For every technician, proposed start and (positive) duration,
`hasOverlappingSchedule` returns true iff some schedule of that technician
with status scheduled or in-progress satisfies the spec's symmetric
interval-intersection test `newStart < existingEnd AND newEnd >
existingStart` on the half-open intervals
`[scheduled_time, scheduled_time + duration)`: the code's three-disjunct
overlap test equals the spec's reference formula. -/
theorem hasOverlappingSchedule_iff_specOverlap (s : State)
    (technicianId : Nat) (start dur : Int) (hdur : 0 < dur)
    (hall : ∀ sc ∈ s.schedules, 0 ≤ sc.duration_minutes) :
    hasOverlappingSchedule s technicianId start dur = true ↔
      ∃ sc ∈ s.schedules, sc.technician_id = technicianId ∧
        (sc.status = SchedStatus.scheduled ∨
         sc.status = SchedStatus.inProgress) ∧
        specIntervalOverlap start (start + dur * msPerMinute)
          sc.scheduled_time
          (sc.scheduled_time + effDuration sc.duration_minutes * msPerMinute) := by
  have hnd : start < start + dur * msPerMinute := by
    have : 0 < dur * msPerMinute := mul_pos hdur (by norm_num [msPerMinute])
    omega
  unfold hasOverlappingSchedule
  rw [List.any_eq_true]
  constructor
  · rintro ⟨sc, hmem, htest⟩
    obtain ⟨h1, h2⟩ := List.mem_filter.mp hmem
    simp only [Bool.and_eq_true, Bool.or_eq_true, beq_iff_eq] at h2
    have hed : sc.scheduled_time <
        sc.scheduled_time + effDuration sc.duration_minutes * msPerMinute := by
      have : 0 < effDuration sc.duration_minutes * msPerMinute :=
        mul_pos (effDuration_pos (hall sc h1)) (by norm_num [msPerMinute])
      omega
    exact ⟨sc, h1, h2.1, h2.2, (overlapTest_eq_spec _ _ _ _ hnd hed).mp htest⟩
  · rintro ⟨sc, hmem, hid, hst, hspec⟩
    have hed : sc.scheduled_time <
        sc.scheduled_time + effDuration sc.duration_minutes * msPerMinute := by
      have : 0 < effDuration sc.duration_minutes * msPerMinute :=
        mul_pos (effDuration_pos (hall sc hmem)) (by norm_num [msPerMinute])
      omega
    refine ⟨sc, List.mem_filter.mpr ⟨hmem, ?_⟩,
      (overlapTest_eq_spec _ _ _ _ hnd hed).mpr hspec⟩
    simp only [Bool.and_eq_true, Bool.or_eq_true, beq_iff_eq]
    exact ⟨hid, hst⟩

/-- Witness for C4: a concrete overlapping request is flagged. -/
theorem hasOverlappingSchedule_iff_specOverlap_witness :
    (0 : Int) < 30 ∧
    (∀ sc ∈ sampleSchedState.schedules, 0 ≤ sc.duration_minutes) ∧
    hasOverlappingSchedule sampleSchedState 1
      (sampleNow + 10 * msPerMinute) 30 = true := by
  have hall : ∀ sc ∈ sampleSchedState.schedules, 0 ≤ sc.duration_minutes := by
    intro sc hsc
    have hsc' : sc = sampleSchedule := by simpa [sampleSchedState] using hsc
    subst hsc'
    norm_num [sampleSchedule]
  refine ⟨by norm_num, hall, ?_⟩
  exact (hasOverlappingSchedule_iff_specOverlap sampleSchedState 1
      (sampleNow + 10 * msPerMinute) 30 (by norm_num) hall).mpr
    ⟨sampleSchedule, by simp [sampleSchedState], rfl, Or.inl rfl, by decide⟩

/-! ## C6: category mapping and technician selection -/

/-- C6 counterexample: the claimed table entry `electrical → Electrical` is
false — the code's table key is `electricity`, so the category
`"electrical"` is unmapped and falls through to the `General` fallback. -/
theorem categoryMap_electrical_counterexample :
    getSpecializationForCategory "electrical" = ["General"] ∧
    getSpecializationForCategory "electrical" ≠ ["Electrical"] := by
  constructor <;> decide

theorem findAcrossTags_some {techs : List Technician} {tags : List String}
    {t : Technician} (h : findAcrossTags techs tags = some t) :
    t ∈ techs ∧ ∃ tag ∈ tags, exactMatchTech tag t = true := by
  induction tags with
  | nil => simp [findAcrossTags] at h
  | cons tag rest ih =>
    unfold findAcrossTags at h
    cases hfind : techs.find? (exactMatchTech tag) with
    | some t' =>
      rw [hfind] at h
      cases h
      exact ⟨List.mem_of_find?_eq_some hfind,
        tag, List.mem_cons_self _ _, List.find?_some hfind⟩
    | none =>
      rw [hfind] at h
      obtain ⟨hmem, tag', htag', hm⟩ := ih h
      exact ⟨hmem, tag', List.mem_cons_of_mem _ htag', hm⟩

theorem findAcrossTags_none {techs : List Technician} {tags : List String}
    (h : findAcrossTags techs tags = none) :
    ∀ t ∈ techs, ∀ tag ∈ tags, exactMatchTech tag t = false := by
  induction tags with
  | nil => intro t _ tag htag; simp at htag
  | cons tag rest ih =>
    unfold findAcrossTags at h
    cases hfind : techs.find? (exactMatchTech tag) with
    | some t' => rw [hfind] at h; cases h
    | none =>
      rw [hfind] at h
      intro t ht tag' htag'
      rcases List.mem_cons.mp htag' with rfl | htag''
      · have := List.find?_eq_none.mp hfind t ht
        simpa using this
      · exact ih h t ht tag' htag''

theorem findAcrossTags_isSome {techs : List Technician} {tags : List String}
    (h : ∃ t ∈ techs, ∃ tag ∈ tags, exactMatchTech tag t = true) :
    ∃ t', findAcrossTags techs tags = some t' := by
  cases hres : findAcrossTags techs tags with
  | some t' => exact ⟨t', rfl⟩
  | none =>
    obtain ⟨t, ht, tag, htag, hm⟩ := h
    have := findAcrossTags_none hres t ht tag htag
    simp [this] at hm

/-- C6 (amended: the code's table key for the Electrical specialization is
`electricity`, and `electrical` is an unmapped category served by the
`General` fallback). Technician selection maps the category through the
fixed table `electricity → Electrical`, `water → Plumbing`, `it → IT`,
`hostel → General ∪ HVAC`, `garbage → General` with `General` for unmapped
categories; any returned technician is active, available and under
capacity; the result is `none` (a normal no-technician outcome, not an
error) iff no eligible technician exists; and whenever an eligible
exact-specialization match exists the selection returns an eligible exact
match rather than the fallback. -/
theorem technicianSelection_spec :
    (getSpecializationForCategory "electricity" = ["Electrical"] ∧
     getSpecializationForCategory "water" = ["Plumbing"] ∧
     getSpecializationForCategory "it" = ["IT"] ∧
     getSpecializationForCategory "hostel" = ["General", "HVAC"] ∧
     getSpecializationForCategory "garbage" = ["General"]) ∧
    (∀ category : String,
      CATEGORY_TO_SPECIALIZATION.lookup (strLower category) = none →
      getSpecializationForCategory category = ["General"]) ∧
    (∀ (s : State) (category : String),
      (∀ t, findTechnicianBySpecialization s category = some t →
        eligibleTech t = true ∧ t ∈ getTechnicians s) ∧
      (findTechnicianBySpecialization s category = none ↔
        ∀ t ∈ getTechnicians s, eligibleTech t = false) ∧
      ((∃ t ∈ getTechnicians s, ∃ tag ∈ getSpecializationForCategory category,
          exactMatchTech tag t = true) →
        ∃ t, findTechnicianBySpecialization s category = some t ∧
          ∃ tag ∈ getSpecializationForCategory category,
            exactMatchTech tag t = true)) := by
  have hchar : ∀ (s : State) (category : String),
      findTechnicianBySpecialization s category =
        match findAcrossTags (getTechnicians s)
            (getSpecializationForCategory category) with
        | some t => some t
        | none => (getTechnicians s).find? eligibleTech := fun s category => rfl
  refine ⟨⟨by decide, by decide, by decide, by decide, by decide⟩,
    fun category h => ?_, fun s category => ⟨?_, ?_, ?_⟩⟩
  · unfold getSpecializationForCategory
    rw [h]
    rfl
  · intro t h
    rw [hchar] at h
    cases hfat : findAcrossTags (getTechnicians s)
        (getSpecializationForCategory category) with
    | some t' =>
      rw [hfat] at h
      cases h
      obtain ⟨hmem, tag, _, hm⟩ := findAcrossTags_some hfat
      simp only [exactMatchTech, Bool.and_eq_true] at hm
      exact ⟨hm.2, hmem⟩
    | none =>
      rw [hfat] at h
      exact ⟨List.find?_some h, List.mem_of_find?_eq_some h⟩
  · rw [hchar]
    cases hfat : findAcrossTags (getTechnicians s)
        (getSpecializationForCategory category) with
    | some t' =>
      constructor
      · intro h; cases h
      · intro hall
        obtain ⟨hmem, tag, _, hm⟩ := findAcrossTags_some hfat
        simp only [exactMatchTech, Bool.and_eq_true] at hm
        have := hall t' hmem
        simp [this] at hm
    | none =>
      constructor
      · intro h t ht
        have := List.find?_eq_none.mp h t ht
        simpa using this
      · intro hall
        exact List.find?_eq_none.mpr (fun t ht => by simp [hall t ht])
  · intro hex
    obtain ⟨t', hfat⟩ := findAcrossTags_isSome hex
    obtain ⟨hmem, tag, htag, hm⟩ := findAcrossTags_some hfat
    refine ⟨t', ?_, tag, htag, hm⟩
    rw [hchar, hfat]

/-- Witness for C6: on a concrete store the selection returns the exact
Plumbing match for category `water`. -/
theorem technicianSelection_spec_witness :
    findTechnicianBySpecialization sampleState "water" =
      some (viewTechnician samplePlumber) ∧
    eligibleTech (viewTechnician samplePlumber) = true := by
  have hsel := (technicianSelection_spec.2.2 sampleState "water").2.2
    ⟨viewTechnician samplePlumber, by decide, "Plumbing", by decide, by decide⟩
  obtain ⟨t, hres, -⟩ := hsel
  have : t = viewTechnician samplePlumber := by
    have h := hres
    rw [show findTechnicianBySpecialization sampleState "water" =
        some (viewTechnician samplePlumber) from by decide] at h
    cases h
    rfl
  exact ⟨this ▸ hres, by decide⟩

/-! ## C7: the rate limiter -/

/-- C7 counterexample: the day bucket is bounded by *server-local*
midnight (`setHours(0,0,0,0)`), not UTC midnight. On a UTC+2 server at
01:00 UTC, three `Critical Alert:` incidents assigned to technician 1 at
23:00 UTC of the previous day sit in the current local day, so the code
denies — yet both UTC-day counts of the claim are 0, far below the caps,
so the claimed Iff would require the attempt to be allowed. -/
theorem rateLimit_utc_counterexample :
    (checkRateLimits rateLimitState 1 rateLimitNow rateLimitOff).allowed = false ∧
    utcTechDayCount rateLimitState 1 rateLimitNow = 0 ∧
    utcSystemDayCount rateLimitState rateLimitNow = 0 := by
  refine ⟨?_, ?_, ?_⟩ <;> decide

/-- C7 (amended: the day bucket runs between server-local midnights —
UTC midnight exactly when the server clock is UTC). `checkRateLimits`
returns denied, with a human-readable reason, iff the candidate technician
already has at least `MAX_ASSIGNMENTS_PER_TECHNICIAN_PER_DAY = 3`
auto-created `Critical Alert:`-titled incidents assigned in the current
day bucket, or at least `MAX_SYSTEM_WIDE_ASSIGNMENTS_PER_DAY = 15` such
assignments exist system-wide in the bucket; in particular a 16th attempt
on a day whose system-wide count has reached 15 is denied. -/
theorem checkRateLimits_characterization (s : State) (technicianId : Nat)
    (now off : Int) :
    ((checkRateLimits s technicianId now off).allowed = false ↔
      MAX_ASSIGNMENTS_PER_TECHNICIAN_PER_DAY ≤
        techDayCount s technicianId now off ∨
      MAX_SYSTEM_WIDE_ASSIGNMENTS_PER_DAY ≤ systemDayCount s now off) ∧
    ((checkRateLimits s technicianId now off).allowed = false →
      (checkRateLimits s technicianId now off).reason.isSome = true) ∧
    MAX_ASSIGNMENTS_PER_TECHNICIAN_PER_DAY = 3 ∧
    MAX_SYSTEM_WIDE_ASSIGNMENTS_PER_DAY = 15 := by
  refine ⟨?_, ?_, rfl, rfl⟩ <;>
    · unfold checkRateLimits
      split_ifs with h1 h2 <;> simp_all <;> omega

/-- Witness for C7: a concrete store at the technician cap is denied with
a reason present. -/
theorem checkRateLimits_characterization_witness :
    (checkRateLimits rateLimitState 1 rateLimitNow rateLimitOff).allowed
      = false ∧
    (checkRateLimits rateLimitState 1 rateLimitNow rateLimitOff).reason.isSome
      = true := by
  have h := checkRateLimits_characterization rateLimitState 1 rateLimitNow
    rateLimitOff
  have hd := h.1.mpr (Or.inl (by decide))
  exact ⟨hd, h.2.1 hd⟩

/-! ## C5: createSchedule error handling -/

theorem jsDefault_zero (c : Int) : jsDefault c 0 = c := by
  unfold jsDefault
  split <;> omega

theorem viewTechnician_current (t : Technician) :
    (viewTechnician t).current_assignments = t.current_assignments := by
  simp [viewTechnician, jsDefault_zero]

theorem viewTechnician_id (t : Technician) :
    (viewTechnician t).id = t.id := rfl

/-- C5. `createSchedule` runs the overlap check first and, on overlap,
fails without writing; otherwise it fails unless the technician exists, is
available and is under capacity (all on the directory read model), every
failure leaves the store unchanged, and on success it persists exactly one
schedule with status scheduled and increments the technician's
`current_assignments` by one. -/
theorem createSchedule_spec (s : State) (d : CreateScheduleData) (now : Int) :
    (hasOverlappingSchedule s d.technician_id d.scheduled_time
        (jsDefault d.duration_minutes 30) = true →
      createSchedule s d now =
        (.error "Technician has overlapping schedule at this time", s)) ∧
    ((∃ e, (createSchedule s d now).1 = .error e) ↔
      (hasOverlappingSchedule s d.technician_id d.scheduled_time
          (jsDefault d.duration_minutes 30) = true ∨
       getTechnicianById s d.technician_id = none ∨
       ∃ t, getTechnicianById s d.technician_id = some t ∧
         (t.available = false ∨ t.max_concurrent ≤ t.current_assignments))) ∧
    ((∃ e, (createSchedule s d now).1 = .error e) →
      (createSchedule s d now).2 = s) ∧
    (∀ sched, (createSchedule s d now).1 = .ok sched →
      (createSchedule s d now).2.schedules = s.schedules ++ [sched] ∧
      sched.status = SchedStatus.scheduled ∧
      sched.technician_id = d.technician_id ∧
      sched.incident_id = d.incident_id ∧
      (createSchedule s d now).2.incidents = s.incidents ∧
      (∃ t, getTechnicianById s d.technician_id = some t ∧
        t.available = true ∧ t.current_assignments < t.max_concurrent ∧
        (getTechnicianById (createSchedule s d now).2 d.technician_id).map
            (fun u => u.current_assignments) =
          some (t.current_assignments + 1))) := by
  by_cases hov : hasOverlappingSchedule s d.technician_id d.scheduled_time
      (jsDefault d.duration_minutes 30)
  · refine ⟨fun _ => ?_, ?_, ?_, ?_⟩
    · unfold createSchedule
      simp [hov]
    · unfold createSchedule
      simp [hov]
    · unfold createSchedule
      simp [hov]
    · intro sched h
      unfold createSchedule at h
      simp [hov] at h
  · cases hget : getTechnicianById s d.technician_id with
    | none =>
      have hrun : createSchedule s d now = (.error "Technician not found", s) := by
        unfold createSchedule
        simp [hov, hget]
      refine ⟨fun h => absurd h hov, ?_, ?_, ?_⟩
      · rw [hrun]
        constructor
        · intro _
          exact Or.inr (Or.inl rfl)
        · intro _
          exact ⟨_, rfl⟩
      · intro _
        rw [hrun]
      · intro sched h
        rw [hrun] at h
        cases h
    | some t =>
      by_cases hav : t.available
      · by_cases hcap : t.current_assignments ≥ t.max_concurrent
        · -- capacity failure
          have hrun : createSchedule s d now =
              (.error "Technician has reached maximum concurrent assignments", s) := by
            unfold createSchedule
            simp [hov, hget, hav, hcap]
          refine ⟨fun h => absurd h hov, ?_, ?_, ?_⟩
          · rw [hrun]
            constructor
            · intro _
              exact Or.inr (Or.inr ⟨t, rfl, Or.inr hcap⟩)
            · intro _
              exact ⟨_, rfl⟩
          · intro _
            rw [hrun]
          · intro sched h
            rw [hrun] at h
            cases h
        · -- success
          have hcap' : t.current_assignments < t.max_concurrent := by omega
          obtain ⟨t0, hfind, hview⟩ :
              ∃ t0, s.technicians.find? (fun u => u.id == d.technician_id) =
                some t0 ∧ viewTechnician t0 = t := by
            unfold getTechnicianById at hget
            cases hfind : s.technicians.find? (fun u => u.id == d.technician_id) with
            | none => simp [hfind] at hget
            | some t0 =>
              rw [hfind] at hget
              exact ⟨t0, rfl, by simpa using hget⟩
          have hrun : createSchedule s d now =
              (.ok (mkSchedule s d now),
               notifyAssignment
                 (updateTechnicianAssignmentCount
                   (insertSchedule s (mkSchedule s d now))
                   d.technician_id 1) d now) := by
            unfold createSchedule
            simp [hov, hget, hav, hcap]
          refine ⟨fun h => absurd h hov, ?_, ?_, ?_⟩
          · constructor
            · rintro ⟨e, he⟩
              rw [hrun] at he
              cases he
            · rintro (h | h | ⟨t', ht', hbad⟩)
              · exact absurd h hov
              · cases h
              · cases ht'
                rcases hbad with hbad | hbad
                · rw [hav] at hbad; cases hbad
                · omega
          · rintro ⟨e, he⟩
            rw [hrun] at he
            cases he
          · intro sched h
            have hsched : sched = mkSchedule s d now := by
              rw [hrun] at h
              cases h
              rfl
            subst hsched
            have htechs : (createSchedule s d now).2.technicians =
                updateFirst (fun u => u.id == d.technician_id)
                  (fun u => { u with
                    current_assignments := u.current_assignments + 1 })
                  s.technicians := by
              rw [hrun]
              unfold notifyAssignment
              cases hdoc : findIncidentDoc
                  (updateTechnicianAssignmentCount
                    (insertSchedule s (mkSchedule s d now)) d.technician_id 1)
                  d.incident_id <;>
                simp [hdoc, updateTechnicianAssignmentCount, insertSchedule]
            have hscheds : (createSchedule s d now).2.schedules =
                s.schedules ++ [mkSchedule s d now] := by
              rw [hrun]
              unfold notifyAssignment
              cases hdoc : findIncidentDoc
                  (updateTechnicianAssignmentCount
                    (insertSchedule s (mkSchedule s d now)) d.technician_id 1)
                  d.incident_id <;>
                simp [hdoc, updateTechnicianAssignmentCount, insertSchedule]
            have hincs : (createSchedule s d now).2.incidents = s.incidents := by
              rw [hrun]
              unfold notifyAssignment
              cases hdoc : findIncidentDoc
                  (updateTechnicianAssignmentCount
                    (insertSchedule s (mkSchedule s d now)) d.technician_id 1)
                  d.incident_id <;>
                simp [hdoc, updateTechnicianAssignmentCount, insertSchedule]
            refine ⟨hscheds, rfl, rfl, rfl, hincs, t, rfl, hav, hcap', ?_⟩
            unfold getTechnicianById
            rw [htechs, find?_updateFirst_self hfind (fun x => by simp)]
            simp only [Option.map_some']
            rw [show (viewTechnician { t0 with
                current_assignments := t0.current_assignments + 1 }).current_assignments
                = t0.current_assignments + 1 from viewTechnician_current _]
            rw [show t.current_assignments = t0.current_assignments from by
              rw [← hview, viewTechnician_current]]
      · -- unavailable failure
        have hrun : createSchedule s d now =
            (.error "Technician is not available", s) := by
          unfold createSchedule
          simp [hov, hget, hav]
        refine ⟨fun h => absurd h hov, ?_, ?_, ?_⟩
        · rw [hrun]
          constructor
          · intro _
            exact Or.inr (Or.inr ⟨t, rfl, Or.inl (by simpa using hav)⟩)
          · intro _
            exact ⟨_, rfl⟩
        · intro _
          rw [hrun]
        · intro sched h
          rw [hrun] at h
          cases h

/-- Witness for C5: a concrete overlapping request fails with the overlap
error and leaves the store untouched. -/
theorem createSchedule_spec_witness :
    hasOverlappingSchedule sampleSchedState 1 sampleNow (jsDefault 30 30)
      = true ∧
    createSchedule sampleSchedState ⟨1, 9, sampleNow, 30⟩ sampleNow =
      (.error "Technician has overlapping schedule at this time",
       sampleSchedState) := by
  refine ⟨by decide, ?_⟩
  exact (createSchedule_spec sampleSchedState ⟨1, 9, sampleNow, 30⟩
    sampleNow).1 (by decide)

/-! ## C3: the capacity invariant -/

theorem viewTechnician_max (t : Technician) :
    (viewTechnician t).max_concurrent = jsDefault t.max_concurrent 2 := rfl

/-- Either `createSchedule` fails (store unchanged) or the technicians list
changes only by the guarded `+1` on the first `_id` match, whose read
model was strictly under capacity. -/
theorem createSchedule_cases (s : State) (d : CreateScheduleData) (now : Int) :
    (createSchedule s d now).2 = s ∨
    ∃ t0, s.technicians.find? (fun u => u.id == d.technician_id) = some t0 ∧
      (viewTechnician t0).current_assignments <
        (viewTechnician t0).max_concurrent ∧
      (createSchedule s d now).2.technicians =
        updateFirst (fun u => u.id == d.technician_id)
          (fun u => { u with
            current_assignments := u.current_assignments + 1 })
          s.technicians := by
  by_cases hov : hasOverlappingSchedule s d.technician_id d.scheduled_time
      (jsDefault d.duration_minutes 30)
  · left
    unfold createSchedule
    simp [hov]
  cases hget : getTechnicianById s d.technician_id with
  | none =>
    left
    unfold createSchedule
    simp [hov, hget]
  | some t =>
    by_cases hav : t.available
    · by_cases hcap : t.current_assignments ≥ t.max_concurrent
      · left
        unfold createSchedule
        simp [hov, hget, hav, hcap]
      · right
        obtain ⟨t0, hfind, hview⟩ :
            ∃ t0, s.technicians.find? (fun u => u.id == d.technician_id) =
              some t0 ∧ viewTechnician t0 = t := by
          unfold getTechnicianById at hget
          cases hfind : s.technicians.find? (fun u => u.id == d.technician_id) with
          | none => simp [hfind] at hget
          | some t0 =>
            rw [hfind] at hget
            exact ⟨t0, rfl, by simpa using hget⟩
        refine ⟨t0, hfind, by rw [hview]; omega, ?_⟩
        have hrun : (createSchedule s d now).2 =
            notifyAssignment
              (updateTechnicianAssignmentCount
                (insertSchedule s (mkSchedule s d now)) d.technician_id 1)
              d now := by
          unfold createSchedule
          simp [hov, hget, hav, hcap]
        rw [hrun]
        unfold notifyAssignment
        cases hdoc : findIncidentDoc
            (updateTechnicianAssignmentCount
              (insertSchedule s (mkSchedule s d now)) d.technician_id 1)
            d.incident_id <;>
          simp [hdoc, updateTechnicianAssignmentCount, insertSchedule]
    · left
      unfold createSchedule
      simp [hov, hget, hav]

/-- One directory operation preserves the capacity invariant. -/
theorem capacityInv_dirStep (s : State) (op : DirOp) (h : CapacityInv s) :
    CapacityInv (dirStep s op) := by
  cases op with
  | setStatus sid st =>
    intro t ht
    exact h t ht
  | create d now =>
    rcases createSchedule_cases s d now with heq | ⟨t0, hfind, hlt, htechs⟩
    · exact fun t ht => h t (heq ▸ ht)
    · intro t ht
      have ht' : t ∈ updateFirst (fun u => u.id == d.technician_id)
          (fun u => { u with
            current_assignments := u.current_assignments + 1 })
          s.technicians := by
        have : (dirStep s (.create d now)).technicians =
            updateFirst (fun u => u.id == d.technician_id)
              (fun u => { u with
                current_assignments := u.current_assignments + 1 })
              s.technicians := htechs
        rwa [this] at ht
      rcases mem_updateFirst ht' with hmem | ⟨a, hfa, rfl⟩
      · exact h t hmem
      · have ha : a = t0 := by
          rw [hfind] at hfa
          injection hfa with h'
          exact h'.symm
        subst ha
        have hmem0 : a ∈ s.technicians := List.mem_of_find?_eq_some hfind
        have hbound := h a hmem0
        have hlt' : a.current_assignments < jsDefault a.max_concurrent 2 := by
          rw [viewTechnician_current, viewTechnician_max] at hlt
          exact hlt
        constructor
        · simp only []
          omega
        · simp only [jsDefault] at *
          omega

/-- C3. For every technician and every sequence of directory operations
(schedule creation — which performs the guarded `adjustAssignmentCount(+1)`
internally and only after verifying `current_assignments < max_concurrent`
— and schedule status updates including completion, which never decrement
the stored count), `0 ≤ current_assignments ≤ max_concurrent` holds on the
directory read model in every state reachable from a state satisfying it. -/
theorem capacity_invariant_reachable (s0 : State) (ops : List DirOp)
    (h0 : CapacityInv s0) : CapacityInv (ops.foldl dirStep s0) := by
  induction ops generalizing s0 with
  | nil => exact h0
  | cons op rest ih => exact ih _ (capacityInv_dirStep s0 op h0)

/-- Witness for C3: a concrete store satisfies the invariant and keeps it
across a concrete operation sequence containing a creation and a
completion. -/
theorem capacity_invariant_reachable_witness :
    CapacityInv sampleSchedState ∧
    CapacityInv ([DirOp.create ⟨1, 9, sampleNow + 2 * msPerHour, 30⟩ sampleNow,
      DirOp.setStatus 20 SchedStatus.completed].foldl dirStep
        sampleSchedState) := by
  constructor
  · decide
  · exact capacity_invariant_reachable sampleSchedState _ (by decide)

/-! ## C10: gate rejections create nothing -/

/-- C10. Every gate of `createAndAssignCriticalAlert` (quality thresholds,
cooldown, deduplication window, technician availability, capacity, rate
limits) is evaluated before any incident document is created, so a `null`
return leaves the whole store — in particular the incident collection —
unchanged: no unassigned incident is left behind by a gate denial. -/
theorem gateRejection_no_writes (s : State) (alert : Alert)
    (userId : Option Nat) (now off : Int) (s' : State)
    (h : createAndAssignCriticalAlert s alert userId now off = (.ok none, s')) :
    s' = s ∧ s'.incidents = s.incidents := by
  unfold createAndAssignCriticalAlert at h
  repeat
    first
      | exact ⟨(congrArg Prod.snd h).symm,
          congrArg State.incidents (congrArg Prod.snd h).symm⟩
      | split at h
      | unfold assignAfterGates at h
      | simp at h

/-- Witness for C10: a concrete alert failing the quality gate (25 days to
failure) is rejected and the store is untouched. -/
theorem gateRejection_no_writes_witness :
    createAndAssignCriticalAlert sampleState
      ⟨"Block A", "water", 25, some 90, none, none⟩ (some 100) sampleNow 0 =
      (.ok none, sampleState) ∧
    (createAndAssignCriticalAlert sampleState
      ⟨"Block A", "water", 25, some 90, none, none⟩ (some 100) sampleNow 0).2.incidents
      = sampleState.incidents := by
  have hrun : createAndAssignCriticalAlert sampleState
      ⟨"Block A", "water", 25, some 90, none, none⟩ (some 100) sampleNow 0 =
      (.ok none,
       (createAndAssignCriticalAlert sampleState
         ⟨"Block A", "water", 25, some 90, none, none⟩
         (some 100) sampleNow 0).2) := by decide
  have h := gateRejection_no_writes sampleState
    ⟨"Block A", "water", 25, some 90, none, none⟩ (some 100) sampleNow 0 _ hrun
  constructor
  · rw [hrun, h.1]
  · rw [h.1]

/-! ## Helper lemmas for the assignment pipeline -/

theorem find?_append_left_none {p : α → Bool} {l1 : List α} (l2 : List α)
    (h : ∀ x ∈ l1, p x = false) :
    List.find? p (l1 ++ l2) = List.find? p l2 := by
  induction l1 with
  | nil => rfl
  | cons a as ih =>
    have ha := h a (by simp)
    simp only [List.cons_append, List.find?, ha]
    exact ih (fun x hx => h x (by simp [hx]))

theorem updateFirst_append_left {p : α → Bool} {f : α → α} {l1 : List α}
    (l2 : List α) (h : ∀ x ∈ l1, p x = false) :
    updateFirst p f (l1 ++ l2) = l1 ++ updateFirst p f l2 := by
  induction l1 with
  | nil => rfl
  | cons a as ih =>
    have ha := h a (by simp)
    simp only [List.cons_append, updateFirst, ha, if_false, Bool.false_eq_true]
    exact congrArg (fun l => a :: l) (ih (fun x hx => h x (by simp [hx])))

theorem createSchedule_incidents_eq (s : State) (d : CreateScheduleData)
    (now : Int) : (createSchedule s d now).2.incidents = s.incidents := by
  simp only [createSchedule]
  repeat' split
  all_goals
    first
      | rfl
      | (simp only [notifyAssignment]
         split <;> simp [updateTechnicianAssignmentCount, insertSchedule])

theorem autoAssignTechnician_incidents_eq (s : State) (incidentId : Nat)
    (scheduledTime : Option Int) (now : Int) :
    (autoAssignTechnician s incidentId scheduledTime now).2.incidents =
      s.incidents := by
  simp only [autoAssignTechnician]
  split
  · rfl
  · rename_i best rest hsort
    have hinc := createSchedule_incidents_eq s
      { technician_id := best.id, incident_id := incidentId,
        scheduled_time := scheduledTime.getD (now + 15 * msPerMinute),
        duration_minutes := 30 } now
    split
    · rename_i sched s1 heq
      rw [heq] at hinc
      exact hinc
    · rename_i e s1 heq
      rw [heq] at hinc
      exact hinc

/-- Success anatomy of the post-gate pipeline: exactly one incident is
appended, carrying the assignment, SLA stamps, priority 5 and status
in-progress. -/
theorem assignAfterGates_success (s : State) (alert : Alert)
    (technician : Technician) (uid : Nat) (now off : Int) (r : AssignResult)
    (s' : State) (hfresh : ∀ inc ∈ s.incidents, inc.id < s.nextId)
    (h : assignAfterGates s alert technician uid now off = (.ok (some r), s')) :
    r.incidentId = s.nextId ∧ r.technicianId = technician.id ∧
    r.slaDeadline = now + SLA_MINUTES * msPerMinute ∧
    ∃ newInc : Incident,
      s'.incidents = s.incidents ++ [newInc] ∧
      newInc.id = s.nextId ∧ newInc.location = alert.location ∧
      newInc.category = alert.category ∧ newInc.created_at = now ∧
      newInc.assigned_to = some technician.id ∧
      newInc.sla_deadline = some (now + SLA_MINUTES * msPerMinute) ∧
      newInc.sla_started_at = some now ∧
      newInc.priority = 5 ∧ newInc.status = "in-progress" := by
  simp only [assignAfterGates] at h
  split at h
  · simp at h
  · rename_i incident s1 heq
    simp only [createIncident] at heq
    split at heq
    · simp at heq
    · split at heq
      · simp at heq
      · rw [Prod.mk.injEq] at heq
        obtain ⟨h1, h2⟩ := heq
        injection h1 with h1
        subst h1
        subst h2
        have hfound : findIncidentDoc
            (insertIncident s (mkIncident s
              { user_id := uid, title := alertTitle alert,
                category := alert.category,
                description := alertDescription alert,
                location := alert.location } now))
            (mkIncident s
              { user_id := uid, title := alertTitle alert,
                category := alert.category,
                description := alertDescription alert,
                location := alert.location } now).id =
            some (mkIncident s
              { user_id := uid, title := alertTitle alert,
                category := alert.category,
                description := alertDescription alert,
                location := alert.location } now) := by
          unfold findIncidentDoc insertIncident
          rw [find?_append_left_none _ (fun x hx => ?_)]
          · simp [List.find?]
          · have := hfresh x hx
            simp only [mkIncident, beq_eq_false_iff_ne, ne_eq]
            omega
        rw [hfound] at h
        simp only [mkIncident] at h
        rw [if_neg (by simp)] at h
        simp only [assignmentStatus] at h
        rw [if_neg (by decide)] at h
        rw [Prod.mk.injEq] at h
        obtain ⟨hr, hs'⟩ := h
        injection hr with hr
        injection hr with hr
        subst hr
        subst hs'
        refine ⟨rfl, rfl, rfl, ?_⟩
        refine ⟨applyAssignment technician.id now "in-progress"
          (mkIncident s
            { user_id := uid, title := alertTitle alert,
              category := alert.category,
              description := alertDescription alert,
              location := alert.location } now), ?_, rfl, rfl, rfl, rfl,
          rfl, rfl, rfl, rfl, rfl⟩
        simp only [notifyCriticalAssignment]
        rw [autoAssignTechnician_incidents_eq]
        simp only [insertIncident]
        rw [updateFirst_append_left _ (fun x hx => ?_)]
        · simp [updateFirst, mkIncident]
        · have := hfresh x hx
          simp only [beq_eq_false_iff_ne, ne_eq]
          omega

/-- A non-null result of the full pipeline comes from `assignAfterGates`
after every gate passed. -/
theorem createAndAssign_success (s : State) (alert : Alert)
    (userId : Option Nat) (now off : Int) (r : AssignResult) (s' : State)
    (h : createAndAssignCriticalAlert s alert userId now off =
      (.ok (some r), s')) :
    passesQualityGates alert = true ∧
    ∃ technician uid,
      findTechnicianBySpecialization s alert.category = some technician ∧
      assignAfterGates s alert technician uid now off = (.ok (some r), s') := by
  unfold createAndAssignCriticalAlert at h
  split at h
  · simp at h
  rename_i h1
  split at h
  · simp at h
  rename_i h2
  split at h
  · simp at h
  rename_i h3
  split at h
  · simp at h
  rename_i technician hftech
  repeat
    first
      | exact ⟨by simpa using h1, technician, _, hftech, h⟩
      | split at h
      | simp at h

/-! ## C2: SLA arithmetic and assignment writes -/

/-- C2. For every alert accepted by all gates at time `T` (`now`), the
assignment engine returns `sla_deadline = T + 15 minutes` exactly
(`SLA_MINUTES = 15`) and stores on the incident: `sla_deadline = T + 15m`,
`sla_started_at = T`, priority forced to 5, and status set by
`assignmentStatus`, which maps `resolved` to `resolved` (preserved) and
everything else to `in-progress` — here the freshly created incident gets
`in-progress`. -/
theorem sla_assignment_fields (s : State) (alert : Alert)
    (userId : Option Nat) (now off : Int) (r : AssignResult) (s' : State)
    (hfresh : ∀ inc ∈ s.incidents, inc.id < s.nextId)
    (h : createAndAssignCriticalAlert s alert userId now off =
      (.ok (some r), s')) :
    SLA_MINUTES = 15 ∧
    r.slaDeadline = now + SLA_MINUTES * msPerMinute ∧
    (∃ inc, findIncidentDoc s' r.incidentId = some inc ∧
      inc.sla_deadline = some (now + SLA_MINUTES * msPerMinute) ∧
      inc.sla_started_at = some now ∧
      inc.priority = 5 ∧
      inc.status = "in-progress" ∧
      inc.assigned_to = some r.technicianId) ∧
    (∀ st, assignmentStatus st =
      if st == "resolved" then "resolved" else "in-progress") := by
  obtain ⟨hpass, technician, uid, hftech, hcall⟩ :=
    createAndAssign_success s alert userId now off r s' h
  obtain ⟨hid, htech, hsla, newInc, hincs, hnid, hloc, hcat, hcreated,
    hassigned, hdl, hstart, hprio, hstatus⟩ :=
    assignAfterGates_success s alert technician uid now off r s' hfresh hcall
  refine ⟨rfl, hsla, ⟨newInc, ?_, hdl, hstart, hprio, hstatus, ?_⟩,
    fun st => rfl⟩
  · unfold findIncidentDoc
    rw [hincs, hid, find?_append_left_none _ (fun x hx => ?_)]
    · simp [List.find?, hnid]
    · have := hfresh x hx
      simp only [beq_eq_false_iff_ne, ne_eq]
      omega
  · rw [hassigned, htech]

/-- Witness for C2: the concrete accepted alert yields exactly
`T + 15 minutes` and the stored fields. -/
theorem sla_assignment_fields_witness :
    ∃ inc, findIncidentDoc
        (createAndAssignCriticalAlert sampleState sampleAlert (some 100)
          sampleNow 0).2 5 = some inc ∧
      inc.sla_deadline = some (sampleNow + SLA_MINUTES * msPerMinute) ∧
      inc.sla_started_at = some sampleNow ∧ inc.priority = 5 ∧
      inc.status = "in-progress" ∧ inc.assigned_to = some 1 := by
  have hrun : createAndAssignCriticalAlert sampleState sampleAlert (some 100)
      sampleNow 0 =
      (.ok (some { incidentId := 5, technicianId := 1,
                   slaDeadline := sampleNow + SLA_MINUTES * msPerMinute }),
       (createAndAssignCriticalAlert sampleState sampleAlert (some 100)
         sampleNow 0).2) := by decide
  have h := sla_assignment_fields sampleState sampleAlert (some 100)
    sampleNow 0
    { incidentId := 5, technicianId := 1,
      slaDeadline := sampleNow + SLA_MINUTES * msPerMinute } _
    (by decide) hrun
  exact h.2.2.1

/-! ## C8: cooldown idempotence -/

/-- C8. If a submission of an alert is accepted (assigned) at time `t1`,
then resubmitting the identical alert at any `t2` within the 24-hour
cooldown window is rejected with a null result and no state change: the
cooldown check finds the incident for the same (location, category)
created-and-assigned at `t1`, so at most one new assignment results. -/
theorem cooldown_idempotence (s : State) (alert : Alert)
    (userId userId2 : Option Nat) (t1 t2 off : Int) (r : AssignResult)
    (s1 : State)
    (hfresh : ∀ inc ∈ s.incidents, inc.id < s.nextId)
    (h1 : createAndAssignCriticalAlert s alert userId t1 off =
      (.ok (some r), s1))
    (hwin : t2 - COOLDOWN_PERIOD_HOURS * msPerHour ≤ t1) :
    createAndAssignCriticalAlert s1 alert userId2 t2 off = (.ok none, s1) := by
  obtain ⟨hpass, technician, uid, hftech, hcall⟩ :=
    createAndAssign_success s alert userId t1 off r s1 h1
  obtain ⟨hid, htech, hsla, newInc, hincs, hnid, hloc, hcat, hcreated,
    hassigned, hdl, hstart, hprio, hstatus⟩ :=
    assignAfterGates_success s alert technician uid t1 off r s1 hfresh hcall
  have hcool : isInCooldownPeriod s1 alert.location alert.category t2 = true := by
    simp only [isInCooldownPeriod]
    apply List.find?_isSome.mpr
    refine ⟨newInc, ?_, ?_⟩
    · rw [hincs]
      simp
    · simp only [Bool.and_eq_true, beq_iff_eq, decide_eq_true_eq,
        Option.isSome_iff_exists]
      exact ⟨⟨⟨hloc, hcat⟩, by omega⟩, technician.id, hassigned⟩
  unfold createAndAssignCriticalAlert
  rw [if_neg (by simp [hpass]), if_pos hcool]

/-- Witness for C8: the same concrete alert resubmitted one hour after a
successful assignment returns null and leaves the store unchanged. -/
theorem cooldown_idempotence_witness :
    createAndAssignCriticalAlert
      (createAndAssignCriticalAlert sampleState sampleAlert (some 100)
        sampleNow 0).2
      sampleAlert (some 100) (sampleNow + msPerHour) 0 =
      (.ok none,
       (createAndAssignCriticalAlert sampleState sampleAlert (some 100)
         sampleNow 0).2) := by
  have hrun : createAndAssignCriticalAlert sampleState sampleAlert (some 100)
      sampleNow 0 =
      (.ok (some { incidentId := 5, technicianId := 1,
                   slaDeadline := sampleNow + SLA_MINUTES * msPerMinute }),
       (createAndAssignCriticalAlert sampleState sampleAlert (some 100)
         sampleNow 0).2) := by decide
  exact cooldown_idempotence sampleState sampleAlert (some 100) (some 100)
    sampleNow (sampleNow + msPerHour) 0 _ _ (by decide) hrun (by decide)

/-! ## C9: the escalation sweep -/

theorem escalateOne_admins (st : State) (inc : Incident) (now : Int) :
    (escalateOne st inc now).admins = st.admins := rfl

theorem escalateOne_technicians (st : State) (inc : Incident) (now : Int) :
    (escalateOne st inc now).technicians = st.technicians := rfl

theorem escalateOne_schedules (st : State) (inc : Incident) (now : Int) :
    (escalateOne st inc now).schedules = st.schedules := rfl

theorem escalateOne_notifications (st : State) (inc : Incident) (now : Int) :
    (escalateOne st inc now).notifications = st.notifications ++
      (slaUserNotification inc now ::
       st.admins.map (slaAdminNotification inc now)) := rfl

theorem findIncidentDoc_escalateOne_other (st : State) (inc : Incident)
    (now : Int) (k : Nat) (hk : inc.id ≠ k) :
    findIncidentDoc (escalateOne st inc now) k = findIncidentDoc st k := by
  unfold findIncidentDoc escalateOne
  apply find?_updateFirst_of_disjoint
  · intro x hx
    simp only [beq_iff_eq] at hx
    simp only [beq_eq_false_iff_ne, ne_eq]
    omega
  · intro x
    rfl

theorem findIncidentDoc_escalateOne_self (st : State) (inc : Incident)
    (now : Int) (h : findIncidentDoc st inc.id = some inc) :
    findIncidentDoc (escalateOne st inc now) inc.id =
      some { inc with escalated := true, escalated_at := some now } := by
  unfold findIncidentDoc escalateOne
  unfold findIncidentDoc at h
  exact find?_updateFirst_self h (fun x => rfl)

/-- Full anatomy of the sweep loop over a snapshot with distinct ids whose
documents are live in the store: every snapshot incident is flagged exactly
when it is overdue and not yet escalated, every other document is
untouched, and the emitted notifications are one to the reporter plus one
per administrator for each newly escalated incident. -/
theorem sweepLoop_spec (now : Int) (rest : List Incident) :
    ∀ (st : State) (count : Nat),
    (∀ inc ∈ rest, findIncidentDoc st inc.id = some inc) →
    (rest.map (fun i => i.id)).Nodup →
    (∀ k, (∀ inc ∈ rest, inc.id ≠ k) →
      findIncidentDoc (sweepLoop now rest st count).1 k =
        findIncidentDoc st k) ∧
    (∀ inc ∈ rest,
      findIncidentDoc (sweepLoop now rest st count).1 inc.id =
        some (if Int.fdiv (now - inc.created_at) msPerMinute > SLA_MINUTES ∧
            inc.escalated = false
          then { inc with escalated := true, escalated_at := some now }
          else inc)) ∧
    ((sweepLoop now rest st count).1.notifications = st.notifications ++
      (rest.filter (fun inc =>
          decide (Int.fdiv (now - inc.created_at) msPerMinute > SLA_MINUTES) &&
          !inc.escalated)).flatMap
        (fun inc => slaUserNotification inc now ::
          st.admins.map (slaAdminNotification inc now))) ∧
    (sweepLoop now rest st count).1.admins = st.admins ∧
    (sweepLoop now rest st count).1.technicians = st.technicians ∧
    (sweepLoop now rest st count).1.schedules = st.schedules := by
  induction rest with
  | nil =>
    intro st count _ _
    exact ⟨fun k _ => rfl, by simp, by simp [sweepLoop], rfl, rfl, rfl⟩
  | cons inc rest' ih =>
    intro st count hmem hnd
    have hmem_head : findIncidentDoc st inc.id = some inc :=
      hmem inc (List.mem_cons_self _ _)
    have hsplit : (∀ x ∈ rest', ¬x.id = inc.id) ∧
        (rest'.map (fun i => i.id)).Nodup := by simpa using hnd
    have hnd' : (rest'.map (fun i => i.id)).Nodup := hsplit.2
    have htail_ne : ∀ i ∈ rest', i.id ≠ inc.id := fun i hi => hsplit.1 i hi
    by_cases hage : Int.fdiv (now - inc.created_at) msPerMinute > SLA_MINUTES
    · by_cases hesc : inc.escalated
      · -- already escalated: skipped
        have hstep : sweepLoop now (inc :: rest') st count =
            sweepLoop now rest' st count := by
          simp only [sweepLoop, hmem_head, hage, if_true, hesc, ite_true]
        obtain ⟨ihk, ihinc, ihnot, ihadm, ihtech, ihsched⟩ :=
          ih st count (fun i hi => hmem i (List.mem_cons_of_mem _ hi)) hnd'
        rw [hstep]
        refine ⟨?_, ?_, ?_, ihadm, ihtech, ihsched⟩
        · intro k hk
          exact ihk k (fun i hi => hk i (List.mem_cons_of_mem _ hi))
        · intro j hj
          rcases List.mem_cons.mp hj with rfl | hj'
          · rw [if_neg (by simp [hesc])]
            rw [ihk j.id (fun i hi => htail_ne i hi), hmem_head]
          · exact ihinc j hj'
        · rw [ihnot]
          simp [List.filter_cons, hage, hesc]
      · -- escalate now
        have hstep : sweepLoop now (inc :: rest') st count =
            sweepLoop now rest' (escalateOne st inc now) (count + 1) := by
          simp only [sweepLoop, hmem_head, hage, if_true, hesc, ite_false,
            Bool.false_eq_true]
        have hmem1 : ∀ i ∈ rest',
            findIncidentDoc (escalateOne st inc now) i.id = some i := by
          intro i hi
          rw [findIncidentDoc_escalateOne_other st inc now i.id
            (fun hc => htail_ne i hi hc.symm)]
          exact hmem i (List.mem_cons_of_mem _ hi)
        obtain ⟨ihk, ihinc, ihnot, ihadm, ihtech, ihsched⟩ :=
          ih (escalateOne st inc now) (count + 1) hmem1 hnd'
        rw [hstep]
        refine ⟨?_, ?_, ?_, ?_, ?_, ?_⟩
        · intro k hk
          rw [ihk k (fun i hi => hk i (List.mem_cons_of_mem _ hi))]
          exact findIncidentDoc_escalateOne_other st inc now k
            (hk inc (List.mem_cons_self _ _))
        · intro j hj
          rcases List.mem_cons.mp hj with rfl | hj'
          · rw [if_pos ⟨hage, by simpa using hesc⟩]
            rw [ihk j.id (fun i hi => htail_ne i hi)]
            exact findIncidentDoc_escalateOne_self st j now hmem_head
          · exact ihinc j hj'
        · rw [ihnot, escalateOne_notifications, escalateOne_admins]
          simp [List.filter_cons, hage, hesc]
        · rw [ihadm, escalateOne_admins]
        · rw [ihtech, escalateOne_technicians]
        · rw [ihsched, escalateOne_schedules]
    · -- not yet overdue: skipped
      have hstep : sweepLoop now (inc :: rest') st count =
          sweepLoop now rest' st count := by
        simp only [sweepLoop, hage, if_false]
      obtain ⟨ihk, ihinc, ihnot, ihadm, ihtech, ihsched⟩ :=
        ih st count (fun i hi => hmem i (List.mem_cons_of_mem _ hi)) hnd'
      rw [hstep]
      refine ⟨?_, ?_, ?_, ihadm, ihtech, ihsched⟩
      · intro k hk
        exact ihk k (fun i hi => hk i (List.mem_cons_of_mem _ hi))
      · intro j hj
        rcases List.mem_cons.mp hj with rfl | hj'
        · rw [if_neg (by simp [hage])]
          rw [ihk j.id (fun i hi => htail_ne i hi), hmem_head]
        · exact ihinc j hj'
      · rw [ihnot]
        simp [List.filter_cons, hage]

/-- C9. The escalation sweep flags an incident (`escalated := true`,
`escalated_at := now`) exactly when its status is new or in-progress, its
age exceeds `SLA_MINUTES` whole minutes, and it is not yet escalated; each
newly escalated incident emits one notification to the reporting user and
one per administrator; and the transition is terminal: an incident with
`escalated = true` is never modified by a sweep run, so `escalated_at`
never changes on re-runs. -/
theorem escalation_sweep_spec (s : State) (now : Int)
    (hnd : (s.incidents.map (fun i => i.id)).Nodup) :
    (∀ inc ∈ s.incidents,
      findIncidentDoc (checkAndEscalateSLA s now).1 inc.id =
        some (if (inc.status = "new" ∨ inc.status = "in-progress") ∧
            Int.fdiv (now - inc.created_at) msPerMinute > SLA_MINUTES ∧
            inc.escalated = false
          then { inc with escalated := true, escalated_at := some now }
          else inc)) ∧
    (∀ inc ∈ s.incidents, inc.escalated = true →
      findIncidentDoc (checkAndEscalateSLA s now).1 inc.id = some inc) ∧
    ((checkAndEscalateSLA s now).1.notifications = s.notifications ++
      ((s.incidents.filter (fun i => i.status == "new") ++
        s.incidents.filter (fun i => i.status == "in-progress")).filter
          (fun inc =>
            decide (Int.fdiv (now - inc.created_at) msPerMinute > SLA_MINUTES) &&
            !inc.escalated)).flatMap
        (fun inc => slaUserNotification inc now ::
          s.admins.map (slaAdminNotification inc now))) := by
  have hrun : checkAndEscalateSLA s now =
      sweepLoop now (s.incidents.filter (fun i => i.status == "new") ++
        s.incidents.filter (fun i => i.status == "in-progress")) s 0 := rfl
  have hinj := List.inj_on_of_nodup_map hnd
  have hsub : ∀ i ∈ s.incidents.filter (fun i => i.status == "new") ++
      s.incidents.filter (fun i => i.status == "in-progress"),
      i ∈ s.incidents := by
    intro i hi
    rcases List.mem_append.mp hi with hi | hi
    · exact (List.mem_filter.mp hi).1
    · exact (List.mem_filter.mp hi).1
  have hstat_of : ∀ i ∈ s.incidents.filter (fun i => i.status == "new") ++
      s.incidents.filter (fun i => i.status == "in-progress"),
      i.status = "new" ∨ i.status = "in-progress" := by
    intro i hi
    rcases List.mem_append.mp hi with hi | hi
    · exact Or.inl (by simpa using (List.mem_filter.mp hi).2)
    · exact Or.inr (by simpa using (List.mem_filter.mp hi).2)
  have hmem : ∀ inc ∈ s.incidents.filter (fun i => i.status == "new") ++
      s.incidents.filter (fun i => i.status == "in-progress"),
      findIncidentDoc s inc.id = some inc := by
    intro inc hi
    exact find?_beq_of_mem_nodup hnd (hsub inc hi)
  have hsnapnd : (((s.incidents.filter (fun i => i.status == "new") ++
      s.incidents.filter (fun i => i.status == "in-progress"))).map
        (fun i => i.id)).Nodup := by
    rw [List.map_append]
    refine List.Nodup.append ?_ ?_ ?_
    · exact ((List.filter_sublist _).map _).nodup hnd
    · exact ((List.filter_sublist _).map _).nodup hnd
    · intro a ha hb
      obtain ⟨x, hx, hxa⟩ := List.mem_map.mp ha
      obtain ⟨y, hy, hya⟩ := List.mem_map.mp hb
      have hxy : x = y := hinj (List.mem_of_mem_filter hx)
        (List.mem_of_mem_filter hy) (by rw [hxa, hya])
      subst hxy
      have h1 : x.status = "new" := by simpa using (List.mem_filter.mp hx).2
      have h2 : x.status = "in-progress" := by
        simpa using (List.mem_filter.mp hy).2
      rw [h1] at h2
      exact absurd h2 (by decide)
  obtain ⟨hk, hincl, hnot, hadm, -, -⟩ :=
    sweepLoop_spec now
      (s.incidents.filter (fun i => i.status == "new") ++
        s.incidents.filter (fun i => i.status == "in-progress")) s 0
      hmem hsnapnd
  have hclause1 : ∀ inc ∈ s.incidents,
      findIncidentDoc (checkAndEscalateSLA s now).1 inc.id =
        some (if (inc.status = "new" ∨ inc.status = "in-progress") ∧
            Int.fdiv (now - inc.created_at) msPerMinute > SLA_MINUTES ∧
            inc.escalated = false
          then { inc with escalated := true, escalated_at := some now }
          else inc) := by
    intro inc hinc_mem
    by_cases hstat : inc.status = "new" ∨ inc.status = "in-progress"
    · have hsnap : inc ∈ s.incidents.filter (fun i => i.status == "new") ++
          s.incidents.filter (fun i => i.status == "in-progress") := by
        rcases hstat with hstat | hstat
        · exact List.mem_append.mpr
            (Or.inl (List.mem_filter.mpr ⟨hinc_mem, by simp [hstat]⟩))
        · exact List.mem_append.mpr
            (Or.inr (List.mem_filter.mpr ⟨hinc_mem, by simp [hstat]⟩))
      by_cases hc : Int.fdiv (now - inc.created_at) msPerMinute >
          SLA_MINUTES ∧ inc.escalated = false
      · rw [hrun, hincl inc hsnap, if_pos hc, if_pos ⟨hstat, hc⟩]
      · rw [hrun, hincl inc hsnap, if_neg hc,
          if_neg (fun hcontra => hc hcontra.2)]
    · have hne : ∀ i ∈ s.incidents.filter (fun i => i.status == "new") ++
          s.incidents.filter (fun i => i.status == "in-progress"),
          i.id ≠ inc.id := by
        intro i hi hc
        have hieq : i = inc := hinj (hsub i hi) hinc_mem hc
        exact hstat (hieq ▸ hstat_of i hi)
      rw [hrun, hk inc.id hne]
      unfold findIncidentDoc
      rw [find?_beq_of_mem_nodup hnd hinc_mem,
        if_neg (fun hcontra => hstat hcontra.1)]
  refine ⟨hclause1, ?_, ?_⟩
  · intro inc hinc_mem hescal
    rw [hclause1 inc hinc_mem, if_neg (by simp [hescal])]
  · rw [hrun]
    exact hnot

/-- Witness for C9: on a concrete store a 16-minute-old incident is
escalated and stamped, and (terminality) an already-escalated incident is
returned unchanged. -/
theorem escalation_sweep_spec_witness :
    findIncidentDoc
        (checkAndEscalateSLA sampleSweepState (sampleNow + 16 * msPerMinute)).1
        9 =
      some (sampleIncidentEscalated (sampleNow + 16 * msPerMinute)) ∧
    findIncidentDoc
        (checkAndEscalateSLA
          (checkAndEscalateSLA sampleSweepState
            (sampleNow + 16 * msPerMinute)).1
          (sampleNow + 60 * msPerMinute)).1 9 =
      some (sampleIncidentEscalated (sampleNow + 16 * msPerMinute)) := by
  have h1 := (escalation_sweep_spec sampleSweepState
    (sampleNow + 16 * msPerMinute) (by decide)).1 sampleIncident (by decide)
  rw [if_pos (by exact ⟨Or.inl rfl, by decide, rfl⟩)] at h1
  constructor
  · exact h1
  · have hmem2 : sampleIncidentEscalated (sampleNow + 16 * msPerMinute) ∈
        (checkAndEscalateSLA sampleSweepState
          (sampleNow + 16 * msPerMinute)).1.incidents := by decide
    have hnd2 : ((checkAndEscalateSLA sampleSweepState
        (sampleNow + 16 * msPerMinute)).1.incidents.map
          (fun i => i.id)).Nodup := by decide
    have h2 := (escalation_sweep_spec
      (checkAndEscalateSLA sampleSweepState (sampleNow + 16 * msPerMinute)).1
      (sampleNow + 60 * msPerMinute) hnd2).2.1
      (sampleIncidentEscalated (sampleNow + 16 * msPerMinute)) hmem2 rfl
    exact h2

end Hawkeye
